import Mathlib

/-!
Verification of the templ runtime (src/runtime.go).

This file gives a shallow embedding of the runtime's data model and
operations, and proves properties of the specification against it.

Modelling conventions:
- Go strings are Lean `String`s; byte sinks are modelled as the string of
  bytes written (the sink itself never fails in this model; the runtime's
  only error source in the embedded fragments is sink failure).
- `context.Context` is immutable in Go; it is modelled as the immutable
  structure `Ctx` carrying the children entry and the ledger pointers.
- `*StringSet` pointers are heap addresses (`Nat`); a `Heap` maps each
  address to the current contents of the set at that address.  Functions
  that mutate a set through a pointer take and return a `Heap`.
- A Go `map[string]struct{}` is modelled as a duplicate-free list used as
  a set; `Add`/`Contains` are insertion and membership.
- A nil `Component` interface value is the constructor
  `Component.nilComponent`; invoking `Render` on it faults (models the Go
  nil-interface method-call panic).
- The style emitters additionally return the trace of `(ID, css)` pairs
  whose css body was appended to the accumulation buffer, in order; the
  string written to the sink is exactly the joined bodies wrapped in one
  style element (`wrapStyle`), so the trace is a faithful view of the
  bytes the source writes with `sb.WriteString(string(ccc.Class))`.
-/

namespace Templ

/-- Result of invoking Render: a normal return carrying the bytes written
to the sink and an optional error, or a fault (nil-interface method call). -/
inductive RenderOutcome where
  | normal (out : String) (err : Option String)
  | fault
deriving DecidableEq

/-- The ledger-pointer portion of a render context: for each of the three
context keys (renderedClasses, renderedItems, renderedScripts of
src/runtime.go), the heap address of the StringSet stored under that key,
or none when the key is absent. -/
structure RCtx where
  renderedClasses : Option Nat
  renderedItems : Option Nat
  renderedScripts : Option Nat
deriving DecidableEq

/-- A renderable (src/runtime.go Component interface).  The function
variant is ComponentFunc: it receives the ledger portion of the context
and yields the bytes it writes plus an optional error.
nilComponent is a nil interface value. -/
inductive Component where
  | nilComponent : Component
  | componentFunc (f : RCtx → String × Option String) : Component

/-- State of the children context key (src/runtime.go contextKeyChildren):
absent (never stored), cleared (ClearChildren stored nil), or set to a
pointer at a &children value (WithChildren), whose pointee may itself be
the nil Component interface value. -/
inductive ChildrenEntry where
  | absent
  | cleared
  | set (c : Component)

/-- A render context: the children entry plus the ledger pointers. -/
structure Ctx where
  children : ChildrenEntry
  core : RCtx

/-- WithChildren (src/runtime.go line 40): stores a pointer to the given
children component under the children key of a new context. -/
def WithChildren (ctx : Ctx) (children : Component) : Ctx :=
  { ctx with children := ChildrenEntry.set children }

/-- ClearChildren (src/runtime.go line 44): stores nil under the children
key of a new context. -/
def ClearChildren (ctx : Ctx) : Ctx :=
  { ctx with children := ChildrenEntry.cleared }

/-- NopComponent (src/runtime.go line 49): renders nothing, never fails. -/
def NopComponent : Component :=
  Component.componentFunc (fun _ => ("", none))

/-- GetChildren (src/runtime.go line 52): the type assertion fails when
the key is absent or holds nil, in which case NopComponent is returned;
otherwise the stored pointer is dereferenced. -/
def GetChildren (ctx : Ctx) : Component :=
  match ctx.children with
  | ChildrenEntry.set c => c
  | _ => NopComponent

/-- Render of a Component (src/runtime.go line 24 / 32).  Calling the
method on a nil interface value faults. -/
def Component.Render : Component → Ctx → RenderOutcome
  | Component.nilComponent, _ => RenderOutcome.fault
  | Component.componentFunc f, ctx => RenderOutcome.normal (f ctx.core).1 (f ctx.core).2

/-- StringSet (src/runtime.go line 349): a set of strings. -/
abbrev StringSet := List String

/-- StringSet.Add (src/runtime.go line 354). -/
def StringSet.Add (rc : StringSet) (s : String) : StringSet :=
  if s ∈ rc then rc else s :: rc

/-- StringSet.Contains (src/runtime.go line 362). -/
def StringSet.Contains (rc : StringSet) (s : String) : Bool :=
  decide (s ∈ rc)

/-- StringSet.AddClass (src/runtime.go line 381): class namespace. -/
def StringSet.AddClass (rc : StringSet) (s : String) : StringSet :=
  StringSet.Add rc ("class_" ++ s)

/-- StringSet.ContainsClass (src/runtime.go line 386). -/
def StringSet.ContainsClass (rc : StringSet) (s : String) : Bool :=
  StringSet.Contains rc ("class_" ++ s)

/-- StringSet.AddScript (src/runtime.go line 371): script namespace. -/
def StringSet.AddScript (rc : StringSet) (s : String) : StringSet :=
  StringSet.Add rc ("script_" ++ s)

/-- StringSet.ContainsScript (src/runtime.go line 376). -/
def StringSet.ContainsScript (rc : StringSet) (s : String) : Bool :=
  StringSet.Contains rc ("script_" ++ s)

/-- CSSClass (src/runtime.go line 171): constant name, or component class
with an autogenerated ID and a CSS rule body. -/
inductive CSSClass where
  | constantCSSClass (name : String)
  | componentCSSClass (id : String) (css : String)
deriving DecidableEq

/-- ClassName of a CSSClass (src/runtime.go lines 179 and 192). -/
def ClassName : CSSClass → String
  | CSSClass.constantCSSClass n => n
  | CSSClass.componentCSSClass id _ => id

/-- Character class of the first regexp bracket [_a-zA-Z] of
safeClassName (src/runtime.go line 153). -/
def inClass1 (c : Char) : Bool :=
  decide (c = '_' ∨ ('a' ≤ c ∧ c ≤ 'z') ∨ ('A' ≤ c ∧ c ≤ 'Z'))

/-- Character class of the second regexp bracket of safeClassName
(src/runtime.go line 153), parsed with RE2 semantics: in [_-a-zA-Z0-9]
the leading three characters form the RANGE from underscore (0x5F) to
the letter a (0x61), so the class also covers the grave accent 0x60;
after that range the hyphen stands alone because the character after it
is z, not a hyphen, so the hyphen and the letter z are literals; A-Z and
0-9 are ranges.  The lowercase letters b through y are NOT in the class. -/
def inClass2 (c : Char) : Bool :=
  decide (('_' ≤ c ∧ c ≤ 'a') ∨ c = '-' ∨ c = 'z' ∨
    ('A' ≤ c ∧ c ≤ 'Z') ∨ ('0' ≤ c ∧ c ≤ '9'))

/-- Full-string matcher for the anchored regexp
safeClassName (src/runtime.go line 153).  The optional leading hyphen must
be consumed when present since the hyphen is not in the first class; the
language class1-plus class2-star is decided greedily, which is exact:
if any split into a class1 block and a class2 block exists, the split at
the maximal class1 block also works. -/
def safeClassNameMatch (s : String) : Bool :=
  match (match s.data with | '-' :: rest => rest | l => l) with
  | [] => false
  | c :: rest => inClass1 c && (rest.dropWhile inClass1).all inClass2

/-- fallbackClassName (src/runtime.go line 155). -/
def fallbackClassName : CSSClass :=
  CSSClass.constantCSSClass "--templ-css-class-safe-name"

/-- SafeClass (src/runtime.go line 166): bypasses validation. -/
def SafeClass (name : String) : CSSClass :=
  CSSClass.constantCSSClass name

/-- Class (src/runtime.go line 158): validate or fall back. -/
def Class (name : String) : CSSClass :=
  if safeClassNameMatch name then SafeClass name else fallbackClassName

/-- Modelled from the spec (section 4.3 validateOrFallback): a letter or
underscore. -/
def specLetter (c : Char) : Bool :=
  decide (c = '_' ∨ ('a' ≤ c ∧ c ≤ 'z') ∨ ('A' ≤ c ∧ c ≤ 'Z'))

/-- Modelled from the spec (section 4.3 validateOrFallback): a letter,
digit, underscore or hyphen. -/
def specTailChar (c : Char) : Bool :=
  specLetter c || decide (('0' ≤ c ∧ c ≤ '9') ∨ c = '-')

/-- Modelled from the spec (section 4.3 validateOrFallback): optional
leading hyphen, then one or more letters or underscores, then any number
of letters, digits, underscores or hyphens.  Since every letter and
underscore is also a tail character, the language equals: optional
hyphen, then a head letter or underscore, then tail characters. -/
def specClassNamePattern (s : String) : Bool :=
  match (match s.data with | '-' :: rest => rest | l => l) with
  | [] => false
  | c :: rest => specLetter c && rest.all specTailChar

/-- Unicode simple-fold step (Go unicode.SimpleFold), restricted to the
code points whose fold cycle intersects the ASCII letters: each ASCII
letter pair, plus the three-element cycles of K (0x4B, 0x6B, 0x212A),
S (0x53, 0x73, 0x17F) and A-with-ring (0xC5, 0xE5, 0x212B).  This is
exact for every comparison the embedded URL function performs, since the
second argument of each EqualFold call is an ASCII literal. -/
def simpleFold (c : Char) : Char :=
  if c = 'k' then Char.ofNat 0x212A
  else if c = 's' then Char.ofNat 0x17F
  else if c.toNat = 0x17F then 'S'
  else if c.toNat = 0x212A then 'K'
  else if c.toNat = 0xC5 then Char.ofNat 0xE5
  else if c.toNat = 0xE5 then Char.ofNat 0x212B
  else if c.toNat = 0x212B then Char.ofNat 0xC5
  else if 'A' ≤ c ∧ c ≤ 'Z' then Char.ofNat (c.toNat + 32)
  else if 'a' ≤ c ∧ c ≤ 'z' then Char.ofNat (c.toNat - 32)
  else c

/-- The inner loop of Go strings.EqualFold: iterate simpleFold from sr
until it returns to sr or reaches at least tr; fold cycles have at most
three elements so fuel 4 is exact. -/
def foldLoopAux : Nat → Char → Char → Char → Char
  | 0, r, _, _ => r
  | n + 1, r, sr, tr =>
    if r ≠ sr ∧ r < tr then foldLoopAux n (simpleFold r) sr tr else r

/-- Go strings.EqualFold on rune lists: position-wise simple-fold
equality, equal lengths required. -/
def equalFoldChars : List Char → List Char → Bool
  | [], [] => true
  | _ :: _, [] => false
  | [], _ :: _ => false
  | sc :: ss, tc :: ts =>
    (if sc = tc then true
     else
       let sr := if tc < sc then tc else sc
       let tr := if tc < sc then sc else tc
       if tr.toNat < 128 then
         decide ('A' ≤ sr ∧ sr ≤ 'Z' ∧ tr.toNat = sr.toNat + 32)
       else
         decide (foldLoopAux 4 (simpleFold sr) sr tr = tr))
    && equalFoldChars ss ts

/-- Go strings.EqualFold on strings. -/
def goEqualFold (s t : String) : Bool :=
  equalFoldChars s.data t.data

/-- Index of the first colon (Go strings.IndexRune(s, ':')), as a rune
index into the character list; none when the string has no colon. -/
def firstColonIdx : List Char → Option Nat
  | [] => none
  | c :: rest => if c = ':' then some 0 else (firstColonIdx rest).map (· + 1)

/-- FailedSanitizationURL (src/runtime.go line 405).  SafeURL is a string
wrapper; it is modelled as the underlying string. -/
def FailedSanitizationURL : String :=
  "about:invalid#TemplFailedSanitizationURL"

/-- The scheme-acceptance test of URL (src/runtime.go line 411): the
protocol is accepted iff it fold-equals http, https or mailto. -/
def acceptedProtocol (p : String) : Bool :=
  goEqualFold p "http" || goEqualFold p "https" || goEqualFold p "mailto"

/-- URL (src/runtime.go line 408): if the string has a colon with no
slash before it, the prefix is a scheme and must be an accepted protocol,
otherwise the poisoned sentinel is returned; in every other case the
string passes through unchanged. -/
def URL (s : String) : String :=
  match firstColonIdx s.data with
  | some i =>
    if '/' ∈ s.data.take i then s
    else if acceptedProtocol (String.mk (s.data.take i)) then s
    else FailedSanitizationURL
  | none => s

/-- Truncation to a 32-bit word. -/
def mod32 (x : Nat) : Nat := x % 4294967296

/-- 32-bit rotate right. -/
def rotr (n x : Nat) : Nat :=
  mod32 ((x >>> n) ||| (x <<< (32 - n)))

/-- The 64 SHA-256 round constants of FIPS 180-4, in decimal: entry i is
the first 32 bits of the fractional part of the cube root of the i-th
prime (2, 3, 5, ...). -/
def sha256K : List Nat :=
  [1116352408, 1899447441, 3049323471, 3921009573, 961987163, 1508970993,
   2453635748, 2870763221, 3624381080, 310598401, 607225278, 1426881987,
   1925078388, 2162078206, 2614888103, 3248222580, 3835390401, 4022224774,
   264347078, 604807628, 770255983, 1249150122, 1555081692, 1996064986,
   2554220882, 2821834349, 2952996808, 3210313671, 3336571891, 3584528711,
   113926993, 338241895, 666307205, 773529912, 1294757372, 1396182291,
   1695183700, 1986661051, 2177026350, 2456956037, 2730485921, 2820302411,
   3259730800, 3345764771, 3516065817, 3600352804, 4094571909, 275423344,
   430227734, 506948616, 659060556, 883997877, 958139571, 1322822218,
   1537002063, 1747873779, 1955562222, 2024104815, 2227730452, 2361852424,
   2428436474, 2756734187, 3204031479, 3329325298]

/-- SHA-256 working state; hh is the state word called h in FIPS 180-4. -/
structure SHA256State where
  a : Nat
  b : Nat
  c : Nat
  d : Nat
  e : Nat
  f : Nat
  g : Nat
  hh : Nat

/-- The SHA-256 initial hash value of FIPS 180-4, in decimal: word i is
the first 32 bits of the fractional part of the square root of the i-th
prime. -/
def sha256Init : SHA256State :=
  ⟨1779033703, 3144134277, 1013904242, 2773480762,
   1359893119, 2600822924, 528734635, 1541459225⟩

/-- One SHA-256 compression round for the round constant and schedule
word kw. -/
def compressRound (st : SHA256State) (kw : Nat × Nat) : SHA256State :=
  let S1 := (rotr 6 st.e) ^^^ (rotr 11 st.e) ^^^ (rotr 25 st.e)
  let ch := (st.e &&& st.f) ^^^ ((st.e ^^^ 0xffffffff) &&& st.g)
  let temp1 := mod32 (st.hh + S1 + ch + kw.1 + kw.2)
  let S0 := (rotr 2 st.a) ^^^ (rotr 13 st.a) ^^^ (rotr 22 st.a)
  let maj := (st.a &&& st.b) ^^^ (st.a &&& st.c) ^^^ (st.b &&& st.c)
  let temp2 := mod32 (S0 + maj)
  ⟨mod32 (temp1 + temp2), st.a, st.b, st.c, mod32 (st.d + temp1), st.e, st.f, st.g⟩

/-- Next message-schedule word from the schedule so far. -/
def nextScheduleWord (w : List Nat) : Nat :=
  let w15 := w.getD (w.length - 15) 0
  let w2 := w.getD (w.length - 2) 0
  let w16 := w.getD (w.length - 16) 0
  let w7 := w.getD (w.length - 7) 0
  let s0 := (rotr 7 w15) ^^^ (rotr 18 w15) ^^^ (w15 >>> 3)
  let s1 := (rotr 17 w2) ^^^ (rotr 19 w2) ^^^ (w2 >>> 10)
  mod32 (w16 + s0 + w7 + s1)

/-- Extend the 16-word schedule by n further words. -/
def extendSchedule : Nat → List Nat → List Nat
  | 0, w => w
  | n + 1, w => extendSchedule n (w ++ [nextScheduleWord w])

/-- Split a list into consecutive groups of n elements; the first
argument is fuel (the list length suffices). -/
def groupN {α : Type} (n : Nat) : Nat → List α → List (List α)
  | 0, _ => []
  | _, [] => []
  | fuel + 1, l => l.take n :: groupN n fuel (l.drop n)

/-- Big-endian bytes of a 32-bit word, combined. -/
def bytesToWord (b : List Nat) : Nat :=
  b.foldl (fun acc x => acc * 256 + x) 0

/-- Big-endian byte expansion of x to n bytes. -/
def toBytesBE : Nat → Nat → List Nat
  | 0, _ => []
  | n + 1, x => toBytesBE n (x / 256) ++ [x % 256]

/-- SHA-256 padding: the byte 0x80, zero bytes to 56 mod 64, then the
bit length as an 8-byte big-endian integer. -/
def sha256pad (m : List Nat) : List Nat :=
  m ++ [0x80] ++ List.replicate ((119 - m.length % 64) % 64) 0
    ++ toBytesBE 8 ((8 * m.length) % (2 ^ 64))

/-- Compress one 64-byte chunk into the state. -/
def compressChunk (st : SHA256State) (chunk : List Nat) : SHA256State :=
  let w0 := (groupN 4 chunk.length chunk).map bytesToWord
  let w := extendSchedule 48 w0
  let r := (sha256K.zip w).foldl compressRound st
  ⟨mod32 (st.a + r.a), mod32 (st.b + r.b), mod32 (st.c + r.c), mod32 (st.d + r.d),
   mod32 (st.e + r.e), mod32 (st.f + r.f), mod32 (st.g + r.g), mod32 (st.hh + r.hh)⟩

/-- Big-endian bytes of a state word. -/
def wordBytes (x : Nat) : List Nat :=
  [x / 16777216 % 256, x / 65536 % 256, x / 256 % 256, x % 256]

/-- The 32 digest bytes of a final state. -/
def digestBytes (st : SHA256State) : List Nat :=
  wordBytes st.a ++ wordBytes st.b ++ wordBytes st.c ++ wordBytes st.d ++
  wordBytes st.e ++ wordBytes st.f ++ wordBytes st.g ++ wordBytes st.hh

/-- SHA-256 of a byte list (Go crypto/sha256 Sum256). -/
def sha256Bytes (m : List Nat) : List Nat :=
  digestBytes ((groupN 64 (sha256pad m).length (sha256pad m)).foldl compressChunk sha256Init)

/-- Lowercase hexadecimal digit. -/
def hexDigit (n : Nat) : Char :=
  if n < 10 then Char.ofNat (48 + n) else Char.ofNat (87 + n)

/-- Lowercase hexadecimal encoding of bytes (Go hex.EncodeToString). -/
def hexEncode : List Nat → List Char
  | [] => []
  | b :: rest => hexDigit (b / 16) :: hexDigit (b % 16) :: hexEncode rest

/-- The UTF-8 bytes of a string (Go []byte conversion). -/
def stringBytes (s : String) : List Nat :=
  s.toUTF8.toList.map (fun b => b.toNat)

/-- The four-hex-character truncated content hash used by CSSID
(src/runtime.go lines 198-199). -/
def cssidHash (css : String) : String :=
  String.mk ((hexEncode (sha256Bytes (stringBytes css))).take 4)

/-- CSSID (src/runtime.go line 197): the human-readable name, an
underscore, and the truncated content hash of the css body. -/
def CSSID (name : String) (css : String) : String :=
  name ++ "_" ++ cssidHash css

/-- The heap of StringSet allocations: contents per address, plus the
next fresh address. -/
structure Heap where
  sets : Nat → StringSet
  next : Nat

/-- Overwrite the set stored at address a. -/
def Heap.update (h : Heap) (a : Nat) (rc : StringSet) : Heap :=
  ⟨fun n => if n = a then rc else h.sets n, h.next⟩

/-- Allocate a fresh empty StringSet. -/
def Heap.alloc (h : Heap) : Heap × Nat :=
  (⟨fun n => if n = h.next then [] else h.sets n, h.next + 1⟩, h.next)

/-- InitializeRenderedItemsContext (src/runtime.go line 443): if the
combined ledger key is present, return the context unchanged; otherwise
allocate a fresh StringSet and store its pointer under the key. -/
def InitializeRenderedItemsContext (ctx : Ctx) (h : Heap) : Ctx × Heap :=
  match ctx.core.renderedItems with
  | some _ => (ctx, h)
  | none =>
    let r := h.alloc
    ({ ctx with core := { ctx.core with renderedItems := some r.2 } }, r.1)

/-- RenderedCSSClassesFromContext (src/runtime.go line 210): the legacy
CSS ledger; when the key is absent a fresh set is allocated and a new
context holding it is returned together with the pointer. -/
def RenderedCSSClassesFromContext (ctx : Ctx) (h : Heap) : Ctx × Heap × Nat :=
  match ctx.core.renderedClasses with
  | some a => (ctx, h, a)
  | none =>
    let r := h.alloc
    ({ ctx with core := { ctx.core with renderedClasses := some r.2 } }, r.1, r.2)

/-- The opening tag written by the style emitters. -/
def styleOpen : String := "<style type=\"text/css\">"

/-- The closing tag written by the style emitters. -/
def styleClose : String := "</style>"

/-- The bytes the style emitters write for a given emission trace: the
accumulated bodies wrapped in one style element, or nothing when the
buffer stayed empty. -/
def wrapStyle (tr : List (String × String)) : String :=
  let sb := String.join (tr.map Prod.snd)
  if sb = "" then "" else styleOpen ++ sb ++ styleClose

/-- The loop of RenderCSSItems (src/runtime.go lines 315-322): only
component classes participate; a class not yet in the ledger (class
namespace) has its body appended and is marked.  Returns the final
ledger contents and the trace of appended (ID, css) pairs. -/
def cssItemsLoop (rc : StringSet) : List CSSClass → StringSet × List (String × String)
  | [] => (rc, [])
  | CSSClass.constantCSSClass _ :: rest => cssItemsLoop rc rest
  | CSSClass.componentCSSClass id css :: rest =>
    if StringSet.ContainsClass rc id then cssItemsLoop rc rest
    else
      let r := cssItemsLoop (StringSet.AddClass rc id) rest
      (r.1, (id, css) :: r.2)

/-- RenderCSSItems (src/runtime.go line 306).  When the combined ledger
key is absent, a fresh local StringSet is used and discarded (its pointer
is never stored in any context).  Returns the heap after the call, the
bytes written, and the emission trace. -/
def RenderCSSItems (ctx : Ctx) (h : Heap) (classes : List CSSClass) :
    Heap × String × List (String × String) :=
  if classes.isEmpty then (h, "", [])
  else
    let rc0 := match ctx.core.renderedItems with
      | some a => h.sets a
      | none => []
    let r := cssItemsLoop rc0 classes
    let h' := match ctx.core.renderedItems with
      | some a => h.update a r.1
      | none => h
    (h', wrapStyle r.2, r.2)

/-- The loop of RenderCSS (src/runtime.go lines 283-290): like
cssItemsLoop but the ledger keys are the bare class names (no class_
namespace). -/
def cssLegacyLoop (rc : StringSet) : List CSSClass → StringSet × List (String × String)
  | [] => (rc, [])
  | CSSClass.constantCSSClass _ :: rest => cssLegacyLoop rc rest
  | CSSClass.componentCSSClass id css :: rest =>
    if StringSet.Contains rc id then cssLegacyLoop rc rest
    else
      let r := cssLegacyLoop (StringSet.Add rc id) rest
      (r.1, (id, css) :: r.2)

/-- RenderCSS (src/runtime.go line 277), the deprecated path: obtains the
legacy ledger via RenderedCSSClassesFromContext, DISCARDING the returned
context, so a lazily allocated ledger is unreachable after the call. -/
def RenderCSS (ctx : Ctx) (h : Heap) (classes : List CSSClass) :
    Heap × String × List (String × String) :=
  if classes.isEmpty then (h, "", [])
  else
    let r0 := RenderedCSSClassesFromContext ctx h
    let h1 := r0.2.1
    let a := r0.2.2
    let r := cssLegacyLoop (h1.sets a) classes
    (h1.update a r.1, wrapStyle r.2, r.2)

/-- A traversal's sequence of RenderCSSItems calls against one context,
threading the heap; returns the final heap and the emission trace of
each call in order. -/
def runCSSItems (ctx : Ctx) (h : Heap) : List (List CSSClass) → Heap × List (List (String × String))
  | [] => (h, [])
  | cs :: rest =>
    let r := RenderCSSItems ctx h cs
    let rr := runCSSItems ctx r.1 rest
    (rr.1, r.2.2 :: rr.2)

/-- Events observable on a http.ResponseWriter. -/
inductive HTTPEvent where
  | writeHeader (status : Nat)
  | addHeader (name value : String)
  | setHeader (name value : String)
  | write (s : String)
deriving DecidableEq

/-- ComponentHandler (src/runtime.go line 61).  The error handler is
modelled by the events the handler it returns would emit, as a function
of the render error. -/
structure ComponentHandler where
  component : Component
  status : Nat
  contentType : String
  errorHandler : Option (String → List HTTPEvent)

/-- componentHandlerErrorMessage (src/runtime.go line 68). -/
def componentHandlerErrorMessage : String := "templ: failed to render template"

/-- The events of Go net/http Error: it sets two headers, writes the
status 500, and writes the message with a trailing newline. -/
def httpError (msg : String) : List HTTPEvent :=
  [HTTPEvent.setHeader "Content-Type" "text/plain; charset=utf-8",
   HTTPEvent.setHeader "X-Content-Type-Options" "nosniff",
   HTTPEvent.writeHeader 500,
   HTTPEvent.write (msg ++ "\n")]

/-- Outcome of ServeHTTP: the events emitted, with a marker for a panic
(nil component). -/
inductive ServeResult where
  | done (events : List HTTPEvent)
  | panicked (events : List HTTPEvent)

/-- The events emitted before returning or panicking. -/
def ServeResult.events : ServeResult → List HTTPEvent
  | ServeResult.done evs => evs
  | ServeResult.panicked evs => evs

/-- ComponentHandler.ServeHTTP (src/runtime.go line 71): write the status
when non-zero, add the Content-Type header, render the component into the
response, and on a render error delegate to the error handler or to
http.Error.  rctx is the request's context. -/
def ServeHTTP (ch : ComponentHandler) (rctx : RCtx) : ServeResult :=
  let hdr := (if ch.status ≠ 0 then [HTTPEvent.writeHeader ch.status] else [])
      ++ [HTTPEvent.addHeader "Content-Type" ch.contentType]
  match ch.component with
  | Component.nilComponent => ServeResult.panicked hdr
  | Component.componentFunc f =>
    match (f rctx).2 with
    | none => ServeResult.done (hdr ++ [HTTPEvent.write (f rctx).1])
    | some e =>
      match ch.errorHandler with
      | some eh => ServeResult.done (hdr ++ [HTTPEvent.write (f rctx).1] ++ eh e)
      | none => ServeResult.done (hdr ++ [HTTPEvent.write (f rctx).1]
          ++ httpError componentHandlerErrorMessage)

/-- Handler (src/runtime.go line 87): defaults plus functional options. -/
def Handler (c : Component) (options : List (ComponentHandler → ComponentHandler)) :
    ComponentHandler :=
  options.foldl (fun ch o => o ch)
    { component := c, status := 0, contentType := "text/html", errorHandler := none }

/-- True of a component class carrying the given identifier. -/
def hasId (id : String) : CSSClass → Bool
  | CSSClass.componentCSSClass i _ => decide (i = id)
  | _ => false

/-- Number of occurrences of the pair p in an emission trace. -/
def countPair (tr : List (String × String)) (p : String × String) : Nat :=
  (tr.filter (fun q => decide (q = p))).length

/-- Index of the first call whose inputs contain a component class with
the given identifier (the number of calls when none does). -/
def firstHit (id : String) : List (List CSSClass) → Nat
  | [] => 0
  | cs :: rest => if cs.any (hasId id) then 0 else firstHit id rest + 1

/-- Every component class with the given identifier occurring anywhere
in the traversal carries the given body. -/
def uniqBody (id body : String) (calls : List (List CSSClass)) : Bool :=
  calls.all (fun cs => cs.all (fun c =>
    match c with
    | CSSClass.componentCSSClass i b => decide (i = id → b = body)
    | _ => true))

/-- WithStatus (src/runtime.go line 99). -/
def WithStatus (status : Nat) : ComponentHandler → ComponentHandler :=
  fun ch => { ch with status := status }

/-- WithContentType (src/runtime.go line 106). -/
def WithContentType (contentType : String) : ComponentHandler → ComponentHandler :=
  fun ch => { ch with contentType := contentType }

/-- WithErrorHandler (src/runtime.go line 113). -/
def WithErrorHandler (eh : String → List HTTPEvent) : ComponentHandler → ComponentHandler :=
  fun ch => { ch with errorHandler := some eh }

/-! Generic string helpers. -/

theorem strDataAppend (s t : String) : (s ++ t).data = s.data ++ t.data := by
  cases s
  cases t
  rfl

theorem strAppendLeftCancel {s t u : String} (h : s ++ t = s ++ u) : t = u := by
  cases t with
  | mk lt =>
    cases u with
    | mk lu =>
      have h2 := congrArg String.data h
      rw [strDataAppend, strDataAppend] at h2
      have h3 : lt = lu := List.append_cancel_left h2
      rw [h3]

theorem strAppendRightCancel {s t u : String} (h : s ++ u = t ++ u) : s = t := by
  cases s with
  | mk ls =>
    cases t with
    | mk lt =>
      have h2 := congrArg String.data h
      rw [strDataAppend, strDataAppend] at h2
      have h3 : ls = lt := List.append_cancel_right h2
      rw [h3]

/-! Claims about the children protocol. -/

/-- C2: WithChildren returns a new context in which GetChildren observes
the supplied component, while the original context (children key absent)
is unchanged: GetChildren on it, or on any context passed through
ClearChildren, still yields the no-op renderable. -/
theorem withChildren_scoped (ctx : Ctx) (c : Component)
    (h : ctx.children = ChildrenEntry.absent) :
    GetChildren (WithChildren ctx c) = c ∧
    GetChildren ctx = NopComponent ∧
    ∀ ctx' : Ctx, GetChildren (ClearChildren ctx') = NopComponent := by
  refine ⟨rfl, ?_, fun _ => rfl⟩
  simp [GetChildren, h]

/-- Witness for withChildren_scoped at a concrete context and component. -/
theorem withChildren_scoped_witness :
    (Ctx.mk ChildrenEntry.absent ⟨none, none, none⟩).children = ChildrenEntry.absent ∧
    (GetChildren (WithChildren (Ctx.mk ChildrenEntry.absent ⟨none, none, none⟩)
        (Component.componentFunc (fun _ => ("hello", none)))) =
      Component.componentFunc (fun _ => ("hello", none)) ∧
    GetChildren (Ctx.mk ChildrenEntry.absent ⟨none, none, none⟩) = NopComponent ∧
    ∀ ctx' : Ctx, GetChildren (ClearChildren ctx') = NopComponent) :=
  ⟨rfl, withChildren_scoped (Ctx.mk ChildrenEntry.absent ⟨none, none, none⟩)
    (Component.componentFunc (fun _ => ("hello", none))) rfl⟩

/-- C3: when the children key is absent or was set by ClearChildren,
GetChildren returns the no-op renderable (not an error), and the no-op
renderable writes nothing and succeeds for every context. -/
theorem getChildren_default_nop (ctx : Ctx)
    (h : ctx.children = ChildrenEntry.absent ∨ ∃ ctx0 : Ctx, ctx = ClearChildren ctx0) :
    GetChildren ctx = NopComponent ∧
    ∀ ctx' : Ctx, Component.Render NopComponent ctx' = RenderOutcome.normal "" none := by
  constructor
  · rcases h with h | ⟨ctx0, rfl⟩
    · simp [GetChildren, h]
    · rfl
  · intro ctx'
    rfl

/-- Witness for getChildren_default_nop at a concrete cleared context. -/
theorem getChildren_default_nop_witness :
    ((ClearChildren (Ctx.mk ChildrenEntry.absent ⟨none, none, none⟩)).children =
        ChildrenEntry.absent ∨
      ∃ ctx0 : Ctx, ClearChildren (Ctx.mk ChildrenEntry.absent ⟨none, none, none⟩) =
        ClearChildren ctx0) ∧
    (GetChildren (ClearChildren (Ctx.mk ChildrenEntry.absent ⟨none, none, none⟩)) =
      NopComponent ∧
    ∀ ctx' : Ctx, Component.Render NopComponent ctx' = RenderOutcome.normal "" none) :=
  ⟨Or.inr ⟨Ctx.mk ChildrenEntry.absent ⟨none, none, none⟩, rfl⟩,
    getChildren_default_nop (ClearChildren (Ctx.mk ChildrenEntry.absent ⟨none, none, none⟩))
      (Or.inr ⟨Ctx.mk ChildrenEntry.absent ⟨none, none, none⟩, rfl⟩)⟩

/-- C10: WithChildren with the nil component stores a pointer to a nil
interface value; GetChildren returns that nil value (no no-op
substitution, which happens only for an absent key or a nil pointer),
and invoking Render on it faults. -/
theorem withChildren_nil_pointer_semantics (ctx ctx' : Ctx) :
    GetChildren (WithChildren ctx Component.nilComponent) = Component.nilComponent ∧
    Component.Render (GetChildren (WithChildren ctx Component.nilComponent)) ctx' =
      RenderOutcome.fault ∧
    ∀ c : Component, GetChildren (WithChildren ctx c) = c :=
  ⟨rfl, rfl, fun _ => rfl⟩

/-! Claims about CSS class naming. -/

/-- C5: the safeClassName regexp of the source diverges from the
documented restrictive pattern.  Because of the RE2 range from
underscore to the letter a inside the second bracket, the name a1b
(letter, digit, letter) fails the source regexp and Class replaces it
with the fallback even though the documented pattern accepts it, while
the name consisting of the letter a followed by a grave accent (0x60)
passes the source regexp and is returned raw even though the documented
pattern rejects it. -/
theorem class_regex_diverges_from_spec :
    Class "a1b" = fallbackClassName ∧
    specClassNamePattern "a1b" = true ∧
    Class (String.mk ['a', Char.ofNat 0x60]) = SafeClass (String.mk ['a', Char.ofNat 0x60]) ∧
    specClassNamePattern (String.mk ['a', Char.ofNat 0x60]) = false := by
  refine ⟨?_, ?_, ?_, ?_⟩ <;> decide

/-- C6 counterexample: CSSID also depends on the name argument, so two
component classes with identical rule bodies but different names receive
different identifiers. -/
theorem cssid_depends_on_name : CSSID "a" "x" ≠ CSSID "b" "x" := by
  intro h
  have h' : ("a" ++ "_") ++ cssidHash "x" = ("b" ++ "_") ++ cssidHash "x" := h
  have h2 := strAppendRightCancel h'
  have h3 := strAppendRightCancel h2
  exact absurd h3 (by decide)

theorem hexEncode_length (bs : List Nat) : (hexEncode bs).length = 2 * bs.length := by
  induction bs with
  | nil => rfl
  | cons b rest ih =>
    simp only [hexEncode, List.length_cons, ih]
    omega

theorem digestBytes_length (st : SHA256State) : (digestBytes st).length = 32 := by
  simp [digestBytes, wordBytes]

theorem sha256Bytes_length (m : List Nat) : (sha256Bytes m).length = 32 :=
  digestBytes_length _

/-- C6 amended: CSSID is deterministic, and identical name AND identical
body yield the identical identifier, which is the name, an underscore,
and a four-character content hash of the body alone (so the body
determines everything after the name). -/
theorem cssid_deterministic (n c c' : String) (h : c = c') :
    CSSID n c = CSSID n c' ∧
    CSSID n c = n ++ "_" ++ cssidHash c ∧
    (cssidHash c).length = 4 := by
  subst h
  refine ⟨rfl, rfl, ?_⟩
  show ((hexEncode (sha256Bytes (stringBytes c))).take 4).length = 4
  rw [List.length_take, hexEncode_length, sha256Bytes_length]
  decide

/-- Witness for cssid_deterministic at concrete inputs. -/
theorem cssid_deterministic_witness :
    ("x" : String) = "x" ∧
    (CSSID "a" "x" = CSSID "a" "x" ∧
     CSSID "a" "x" = "a" ++ "_" ++ cssidHash "x" ∧
     (cssidHash "x").length = 4) :=
  ⟨rfl, cssid_deterministic "a" "x" "x" rfl⟩

/-! Claims about the HTTP adapter. -/

theorem serveHTTP_events_decomp (ch : ComponentHandler) (rctx : RCtx) :
    ∃ rest, (ServeHTTP ch rctx).events =
      ((if ch.status ≠ 0 then [HTTPEvent.writeHeader ch.status] else [])
        ++ [HTTPEvent.addHeader "Content-Type" ch.contentType]) ++ rest := by
  cases hc : ch.component with
  | nilComponent =>
    exact ⟨[], by simp [ServeHTTP, hc, ServeResult.events]⟩
  | componentFunc f =>
    cases hf : (f rctx).2 with
    | none =>
      exact ⟨[HTTPEvent.write (f rctx).1], by simp [ServeHTTP, hc, hf, ServeResult.events]⟩
    | some e =>
      cases he : ch.errorHandler with
      | none =>
        exact ⟨[HTTPEvent.write (f rctx).1] ++ httpError componentHandlerErrorMessage,
          by simp [ServeHTTP, hc, hf, he, ServeResult.events]⟩
      | some eh =>
        exact ⟨[HTTPEvent.write (f rctx).1] ++ eh e,
          by simp [ServeHTTP, hc, hf, he, ServeResult.events]⟩

/-- C9: whenever ServeHTTP emits a body write event, the Content-Type
header has already been added before it, and, when a status is
configured (non-zero), the status has already been written before it;
the Handler constructor defaults the content type to text/html. -/
theorem serveHTTP_headers_before_body (ch : ComponentHandler) (rctx : RCtx)
    (i : Nat) (s : String)
    (hi : ((ServeHTTP ch rctx).events).get? i = some (HTTPEvent.write s)) :
    (∃ j, j < i ∧ ((ServeHTTP ch rctx).events).get? j =
        some (HTTPEvent.addHeader "Content-Type" ch.contentType)) ∧
    (ch.status ≠ 0 → ∃ j, j < i ∧ ((ServeHTTP ch rctx).events).get? j =
        some (HTTPEvent.writeHeader ch.status)) ∧
    (∀ c : Component, (Handler c []).contentType = "text/html") := by
  obtain ⟨rest, hev⟩ := serveHTTP_events_decomp ch rctx
  by_cases hst : ch.status = 0
  · simp only [hst, ne_eq, not_true_eq_false, if_false, List.nil_append] at hev
    rw [hev] at hi ⊢
    cases i with
    | zero => simp at hi
    | succ k =>
      exact ⟨⟨0, Nat.succ_pos k, by simp⟩, fun h => absurd hst h, fun _ => rfl⟩
  · simp only [ne_eq, hst, not_false_eq_true, if_true] at hev
    rw [hev] at hi ⊢
    cases i with
    | zero => simp at hi
    | succ k =>
      cases k with
      | zero => simp at hi
      | succ m =>
        refine ⟨⟨1, by omega, by simp⟩, fun _ => ⟨0, by omega, by simp⟩, fun _ => rfl⟩

/-- Witness for serveHTTP_headers_before_body at a concrete handler. -/
theorem serveHTTP_headers_before_body_witness :
    ((ServeHTTP (ComponentHandler.mk (Component.componentFunc (fun _ => ("hi", none)))
        201 "text/html" none) ⟨none, none, none⟩).events).get? 2 =
      some (HTTPEvent.write "hi") ∧
    ((∃ j, j < 2 ∧ ((ServeHTTP (ComponentHandler.mk
          (Component.componentFunc (fun _ => ("hi", none))) 201 "text/html" none)
          ⟨none, none, none⟩).events).get? j =
        some (HTTPEvent.addHeader "Content-Type" "text/html")) ∧
     ((201 : Nat) ≠ 0 → ∃ j, j < 2 ∧ ((ServeHTTP (ComponentHandler.mk
          (Component.componentFunc (fun _ => ("hi", none))) 201 "text/html" none)
          ⟨none, none, none⟩).events).get? j = some (HTTPEvent.writeHeader 201)) ∧
     (∀ c : Component, (Handler c []).contentType = "text/html")) :=
  ⟨rfl, serveHTTP_headers_before_body
    (ComponentHandler.mk (Component.componentFunc (fun _ => ("hi", none))) 201 "text/html" none)
    ⟨none, none, none⟩ 2 "hi" rfl⟩

/-! Claims about URL sanitization. -/

theorem firstColonIdx_of_split (pre post : List Char) (h : ':' ∉ pre) :
    firstColonIdx (pre ++ ':' :: post) = some pre.length := by
  induction pre with
  | nil => simp [firstColonIdx]
  | cons c rest ih =>
    have hc : ¬(c = ':') := fun hh => h (by simp [hh])
    have hr : ':' ∉ rest := fun hh => h (by simp [hh])
    simp [firstColonIdx, hc, ih hr]

theorem firstColonIdx_decomp {l : List Char} {i : Nat} (h : firstColonIdx l = some i) :
    l = l.take i ++ ':' :: l.drop (i + 1) ∧ ':' ∉ l.take i := by
  induction l generalizing i with
  | nil => simp [firstColonIdx] at h
  | cons c rest ih =>
    by_cases hc : c = ':'
    · simp [firstColonIdx, hc] at h
      subst hc
      rw [← h]
      simp
    · simp [firstColonIdx, hc] at h
      obtain ⟨j, hj, hji⟩ := h
      obtain ⟨h1, h2⟩ := ih hj
      subst hji
      constructor
      · simp only [List.take_succ_cons, List.drop_succ_cons, List.cons_append]
        exact congrArg (c :: ·) h1
      · simp only [List.take_succ_cons]
        intro hmem
        rcases List.mem_cons.mp hmem with h3 | h3
        · exact hc h3.symm
        · exact h2 h3

theorem firstColonIdx_none {l : List Char} (h : firstColonIdx l = none) : ':' ∉ l := by
  induction l with
  | nil => simp
  | cons c rest ih =>
    by_cases hc : c = ':'
    · simp [firstColonIdx, hc] at h
    · simp only [firstColonIdx, hc, if_false] at h
      have h' : firstColonIdx rest = none := by
        cases hk : firstColonIdx rest with
        | none => rfl
        | some k => rw [hk] at h; simp at h
      intro hmem
      rcases List.mem_cons.mp hmem with h3 | h3
      · exact hc h3.symm
      · exact ih h' h3

/-- If the list splits at a colon-free position, the first colon is there
and the take recovers the split point. -/
theorem firstColonIdx_unique {l pre post : List Char} {i : Nat}
    (hcol : firstColonIdx l = some i) (hdec : l = pre ++ ':' :: post)
    (hnc : ':' ∉ pre) : pre = l.take i := by
  have h1 : firstColonIdx l = some pre.length := by
    rw [hdec]
    exact firstColonIdx_of_split pre post hnc
  rw [hcol] at h1
  have h2 : pre.length = i := by
    simpa using h1.symm
  rw [hdec, ← h2]
  rw [List.take_left]

/-- C4: URL never fails (it returns the input unchanged or the fixed
sentinel), and it returns the sentinel exactly when the string has a
colon, no slash and no earlier colon occur before that colon, and the
text before the colon is, compared case-insensitively (Go EqualFold),
none of http, https, mailto. -/
theorem url_sanitization (s : String) :
    (URL s = s ∨ URL s = FailedSanitizationURL) ∧
    (URL s = FailedSanitizationURL ↔
      ∃ pre post : List Char, s.data = pre ++ ':' :: post ∧ ':' ∉ pre ∧ '/' ∉ pre ∧
        acceptedProtocol (String.mk pre) = false) := by
  cases hcol : firstColonIdx s.data with
  | none =>
    have hurl : URL s = s := by simp [URL, hcol]
    refine ⟨Or.inl hurl, ?_, ?_⟩
    · intro h
      rw [hurl] at h
      subst h
      rw [show firstColonIdx FailedSanitizationURL.data = some 5 from by decide] at hcol
      simp at hcol
    · rintro ⟨pre, post, hdec, hnc, -, -⟩
      have h1 : firstColonIdx s.data = some pre.length := by
        rw [hdec]
        exact firstColonIdx_of_split pre post hnc
      rw [hcol] at h1
      simp at h1
  | some i =>
    obtain ⟨hd1, hd2⟩ := firstColonIdx_decomp hcol
    by_cases hsl : '/' ∈ s.data.take i
    · have hurl : URL s = s := by simp [URL, hcol, hsl]
      refine ⟨Or.inl hurl, ?_, ?_⟩
      · intro h
        rw [hurl] at h
        subst h
        rw [show firstColonIdx FailedSanitizationURL.data = some 5 from by decide] at hcol
        have h5 : i = 5 := by simpa using hcol.symm
        rw [h5] at hsl
        exact absurd hsl (by decide)
      · rintro ⟨pre, post, hdec, hnc, hns, -⟩
        have hpre := firstColonIdx_unique hcol hdec hnc
        rw [← hpre] at hsl
        exact (hns hsl).elim
    · by_cases hacc : acceptedProtocol (String.mk (s.data.take i)) = true
      · have hurl : URL s = s := by simp [URL, hcol, hsl, hacc]
        refine ⟨Or.inl hurl, ?_, ?_⟩
        · intro h
          rw [hurl] at h
          subst h
          rw [show firstColonIdx FailedSanitizationURL.data = some 5 from by decide] at hcol
          have h5 : i = 5 := by simpa using hcol.symm
          rw [h5] at hacc
          exact absurd hacc (by decide)
        · rintro ⟨pre, post, hdec, hnc, -, hna⟩
          have hpre := firstColonIdx_unique hcol hdec hnc
          rw [← hpre] at hacc
          rw [hna] at hacc
          exact absurd hacc (by simp)
      · have hurl : URL s = FailedSanitizationURL := by
          simp only [URL, hcol]
          rw [if_neg hsl, if_neg hacc]
        refine ⟨Or.inr hurl, fun _ => ?_, fun _ => hurl⟩
        exact ⟨s.data.take i, s.data.drop (i + 1), hd1, hd2, hsl,
          Bool.not_eq_true _ ▸ hacc⟩

/-! Claims about the style emitters and the resource ledger. -/

theorem classKey_inj {a b : String} (h : "class_" ++ a = "class_" ++ b) : a = b :=
  strAppendLeftCancel h

theorem countPair_nil (p : String × String) : countPair [] p = 0 := rfl

theorem countPair_cons (q : String × String) (tr : List (String × String))
    (p : String × String) :
    countPair (q :: tr) p = (if q = p then 1 else 0) + countPair tr p := by
  by_cases h : q = p <;> simp [countPair, List.filter_cons, h, Nat.add_comm]

theorem cssItemsLoop_mem (id : String) (cs : List CSSClass) :
    ∀ rc : StringSet,
      (("class_" ++ id) ∈ (cssItemsLoop rc cs).1 ↔
        ("class_" ++ id) ∈ rc ∨ cs.any (hasId id) = true) := by
  induction cs with
  | nil => intro rc; simp [cssItemsLoop]
  | cons c rest ih =>
    intro rc
    cases c with
    | constantCSSClass n =>
      simp [cssItemsLoop, ih rc, hasId]
    | componentCSSClass i b =>
      by_cases hid : i = id
      · subst hid
        by_cases hc : StringSet.ContainsClass rc i = true
        · have hmem : ("class_" ++ i) ∈ rc := by
            simpa [StringSet.ContainsClass, StringSet.Contains] using hc
          simp [cssItemsLoop, hc, ih rc, hmem, hasId]
        · have hmem : ("class_" ++ i) ∉ rc := by
            simpa [StringSet.ContainsClass, StringSet.Contains] using hc
          simp only [cssItemsLoop]
          rw [if_neg hc]
          rw [ih (StringSet.AddClass rc i)]
          simp [StringSet.AddClass, StringSet.Add, hmem, hasId]
      · have hni : hasId id (CSSClass.componentCSSClass i b) = false := by
          simp [hasId, hid]
        by_cases hc : StringSet.ContainsClass rc i = true
        · simp [cssItemsLoop, hc, ih rc, hni]
        · have hmem : ("class_" ++ i) ∉ rc := by
            simpa [StringSet.ContainsClass, StringSet.Contains] using hc
          have hne : ("class_" ++ id) ≠ ("class_" ++ i) :=
            fun hh => hid (classKey_inj hh).symm
          simp only [cssItemsLoop]
          rw [if_neg hc]
          rw [ih (StringSet.AddClass rc i)]
          simp [StringSet.AddClass, StringSet.Add, hmem, hne, hni]

theorem cssItemsLoop_count_marked (id body : String) (cs : List CSSClass) :
    ∀ rc : StringSet, ("class_" ++ id) ∈ rc →
      countPair (cssItemsLoop rc cs).2 (id, body) = 0 := by
  induction cs with
  | nil => intro rc _; rfl
  | cons c rest ih =>
    intro rc hmem
    cases c with
    | constantCSSClass n => simpa [cssItemsLoop] using ih rc hmem
    | componentCSSClass i b =>
      by_cases hc : StringSet.ContainsClass rc i = true
      · simpa [cssItemsLoop, hc] using ih rc hmem
      · have hmi : ("class_" ++ i) ∉ rc := by
          simpa [StringSet.ContainsClass, StringSet.Contains] using hc
        have hid : i ≠ id := fun hh => hmi (hh ▸ hmem)
        have hmem' : ("class_" ++ id) ∈ StringSet.AddClass rc i := by
          simp [StringSet.AddClass, StringSet.Add, hmi]
          exact Or.inr hmem
        simp only [cssItemsLoop]
        rw [if_neg hc]
        rw [countPair_cons]
        have hne : ((i, b) : String × String) ≠ (id, body) := by
          simp [hid]
        rw [if_neg hne, ih (StringSet.AddClass rc i) hmem']

theorem cssItemsLoop_count_fresh (id body : String) (cs : List CSSClass) :
    ∀ rc : StringSet, ("class_" ++ id) ∉ rc →
      (∀ b, CSSClass.componentCSSClass id b ∈ cs → b = body) →
      countPair (cssItemsLoop rc cs).2 (id, body) =
        if cs.any (hasId id) then 1 else 0 := by
  induction cs with
  | nil => intro rc _ _; simp [cssItemsLoop, countPair]
  | cons c rest ih =>
    intro rc hfresh huniq
    have huniq' : ∀ b, CSSClass.componentCSSClass id b ∈ rest → b = body :=
      fun b hb => huniq b (List.mem_cons_of_mem _ hb)
    cases c with
    | constantCSSClass n =>
      simp only [cssItemsLoop]
      rw [ih rc hfresh huniq']
      simp [hasId]
    | componentCSSClass i b =>
      by_cases hid : i = id
      · subst hid
        have hc : ¬(StringSet.ContainsClass rc i = true) := by
          simpa [StringSet.ContainsClass, StringSet.Contains] using hfresh
        have hb : b = body := huniq b (List.mem_cons_self _ _)
        subst hb
        have hmem' : ("class_" ++ i) ∈ StringSet.AddClass rc i := by
          simp [StringSet.AddClass, StringSet.Add, hfresh]
        simp only [cssItemsLoop]
        rw [if_neg hc]
        rw [countPair_cons, if_pos rfl,
          cssItemsLoop_count_marked i b rest (StringSet.AddClass rc i) hmem']
        simp [hasId]
      · have hni : hasId id (CSSClass.componentCSSClass i b) = false := by
          simp [hasId, hid]
        have hne : ((i, b) : String × String) ≠ (id, body) := by
          simp [hid]
        by_cases hc : StringSet.ContainsClass rc i = true
        · simp only [cssItemsLoop]
          rw [if_pos hc]
          rw [ih rc hfresh huniq']
          simp [hni]
        · have hmi : ("class_" ++ i) ∉ rc := by
            simpa [StringSet.ContainsClass, StringSet.Contains] using hc
          have hfresh' : ("class_" ++ id) ∉ StringSet.AddClass rc i := by
            simp [StringSet.AddClass, StringSet.Add, hmi]
            exact ⟨fun hh => hid (classKey_inj hh).symm, hfresh⟩
          simp only [cssItemsLoop]
          rw [if_neg hc]
          rw [countPair_cons, if_neg hne, ih (StringSet.AddClass rc i) hfresh' huniq']
          simp [hni]

theorem cssItemsLoop_count_le_one (id body : String) (cs : List CSSClass) :
    ∀ rc : StringSet, countPair (cssItemsLoop rc cs).2 (id, body) ≤ 1 := by
  induction cs with
  | nil => intro rc; simp [cssItemsLoop, countPair_nil]
  | cons c rest ih =>
    intro rc
    cases c with
    | constantCSSClass n => simpa [cssItemsLoop] using ih rc
    | componentCSSClass i b =>
      by_cases hc : StringSet.ContainsClass rc i = true
      · simpa [cssItemsLoop, hc] using ih rc
      · have hmi : ("class_" ++ i) ∉ rc := by
          simpa [StringSet.ContainsClass, StringSet.Contains] using hc
        simp only [cssItemsLoop]
        rw [if_neg hc]
        rw [countPair_cons]
        by_cases hp : ((i, b) : String × String) = (id, body)
        · have hii : i = id := congrArg Prod.fst hp
          have hmi2 : ("class_" ++ id) ∉ rc := hii ▸ hmi
          have hmem' : ("class_" ++ id) ∈ StringSet.AddClass rc i := by
            simp [StringSet.AddClass, StringSet.Add, hii, hmi2]
          rw [if_pos hp, cssItemsLoop_count_marked id body rest (StringSet.AddClass rc i) hmem']
        · rw [if_neg hp]
          simpa using ih (StringSet.AddClass rc i)

theorem renderCSSItems_init (ctx : Ctx) (h : Heap) (cs : List CSSClass) (a : Nat)
    (hinit : ctx.core.renderedItems = some a) :
    (RenderCSSItems ctx h cs).1.sets a = (cssItemsLoop (h.sets a) cs).1 ∧
    (RenderCSSItems ctx h cs).2.2 = (cssItemsLoop (h.sets a) cs).2 := by
  by_cases hcs : cs.isEmpty = true
  · have hnil : cs = [] := by
      cases cs with
      | nil => rfl
      | cons c rest => simp [List.isEmpty] at hcs
    subst hnil
    simp [RenderCSSItems, cssItemsLoop]
  · constructor <;> simp [RenderCSSItems, hcs, hinit, Heap.update]

theorem renderCSSItems_none_eq (ctx : Ctx) (h : Heap) (cs : List CSSClass)
    (hnone : ctx.core.renderedItems = none) :
    RenderCSSItems ctx h cs =
      (h, wrapStyle (cssItemsLoop [] cs).2, (cssItemsLoop [] cs).2) := by
  by_cases hcs : cs.isEmpty = true
  · have hnil : cs = [] := by
      cases cs with
      | nil => rfl
      | cons c rest => simp [List.isEmpty] at hcs
    subst hnil
    have hw : wrapStyle ([] : List (String × String)) = "" := rfl
    simp [RenderCSSItems, cssItemsLoop, hw]
  · simp [RenderCSSItems, hcs, hnone]

theorem runCSSItems_length (ctx : Ctx) (calls : List (List CSSClass)) :
    ∀ h : Heap, (runCSSItems ctx h calls).2.length = calls.length := by
  induction calls with
  | nil => intro h; rfl
  | cons cs rest ih => intro h; simp [runCSSItems, ih]

theorem runCSSItems_marked (ctx : Ctx) (a : Nat) (id body : String)
    (hinit : ctx.core.renderedItems = some a) (calls : List (List CSSClass)) :
    ∀ h : Heap, ("class_" ++ id) ∈ h.sets a →
      ∀ tr ∈ (runCSSItems ctx h calls).2, countPair tr (id, body) = 0 := by
  induction calls with
  | nil => intro h _ tr htr; simp [runCSSItems] at htr
  | cons cs rest ih =>
    intro h hmem tr htr
    obtain ⟨hsets, htrace⟩ := renderCSSItems_init ctx h cs a hinit
    simp only [runCSSItems, List.mem_cons] at htr
    rcases htr with rfl | htr
    · rw [htrace]
      exact cssItemsLoop_count_marked id body cs (h.sets a) hmem
    · refine ih (RenderCSSItems ctx h cs).1 ?_ tr htr
      rw [hsets]
      exact (cssItemsLoop_mem id cs (h.sets a)).mpr (Or.inl hmem)

theorem runCSSItems_fresh_aux (ctx : Ctx) (a : Nat) (id body : String)
    (hinit : ctx.core.renderedItems = some a) :
    ∀ (calls : List (List CSSClass)) (h : Heap), ("class_" ++ id) ∉ h.sets a →
      uniqBody id body calls = true →
      ∀ k tr, (runCSSItems ctx h calls).2.get? k = some tr →
        countPair tr (id, body) = if firstHit id calls = k then 1 else 0 := by
  intro calls
  induction calls with
  | nil => intro h _ _ k tr htr; simp [runCSSItems] at htr
  | cons cs rest ih =>
    intro h hfresh huniq k tr htr
    have huniq_head : ∀ b, CSSClass.componentCSSClass id b ∈ cs → b = body := by
      intro b hb
      have h1 : cs.all (fun c =>
          match c with
          | CSSClass.componentCSSClass i bb => decide (i = id → bb = body)
          | _ => true) = true := by
        have := (List.all_eq_true.mp huniq) cs (List.mem_cons_self _ _)
        simpa using this
      have h2 := (List.all_eq_true.mp h1) _ hb
      simp at h2
      exact h2
    have huniq_tail : uniqBody id body rest = true := by
      rw [uniqBody, List.all_eq_true]
      intro cs' hcs'
      exact (List.all_eq_true.mp huniq) cs' (List.mem_cons_of_mem _ hcs')
    obtain ⟨hsets, htrace⟩ := renderCSSItems_init ctx h cs a hinit
    cases k with
    | zero =>
      simp only [runCSSItems, List.get?] at htr
      have htr' : tr = (RenderCSSItems ctx h cs).2.2 := by
        cases htr
        rfl
      subst htr'
      rw [htrace, cssItemsLoop_count_fresh id body cs (h.sets a) hfresh huniq_head]
      by_cases hany : cs.any (hasId id) = true
      · simp [firstHit, hany]
      · simp [firstHit, hany]
    | succ k =>
      have htr' : (runCSSItems ctx (RenderCSSItems ctx h cs).1 rest).2.get? k = some tr := by
        simpa [runCSSItems] using htr
      by_cases hany : cs.any (hasId id) = true
      · have hmem1 : ("class_" ++ id) ∈ (RenderCSSItems ctx h cs).1.sets a := by
          rw [hsets]
          exact (cssItemsLoop_mem id cs (h.sets a)).mpr (Or.inr hany)
        have h0 := runCSSItems_marked ctx a id body hinit rest
          (RenderCSSItems ctx h cs).1 hmem1 tr (List.get?_mem htr')
        have hne : firstHit id (cs :: rest) ≠ k + 1 := by
          simp [firstHit, hany]
        rw [h0, if_neg hne]
      · have hfresh1 : ("class_" ++ id) ∉ (RenderCSSItems ctx h cs).1.sets a := by
          rw [hsets]
          intro hmem
          rcases (cssItemsLoop_mem id cs (h.sets a)).mp hmem with h1 | h1
          · exact hfresh h1
          · exact hany h1
        have hrec := ih (RenderCSSItems ctx h cs).1 hfresh1 huniq_tail k tr htr'
        have hfh : firstHit id (cs :: rest) = firstHit id rest + 1 := by
          simp [firstHit, hany]
        rw [hfh]
        by_cases heq : firstHit id rest = k
        · rw [heq] at hrec ⊢
          simpa using hrec
        · have hne1 : firstHit id rest + 1 ≠ k + 1 := by omega
          rw [if_neg hne1]
          rw [if_neg heq] at hrec
          exact hrec

/-- C1 counterexample: with an initialized ledger, a component class
whose identifier already appeared with a different body is never
emitted, even at the first invocation that includes it, so the claim
as stated (the body of every component class with a non-empty body is
written exactly once) fails on identifier collisions. -/
theorem renderCSSItems_not_once_on_id_collision :
    countPair (List.flatten (runCSSItems ⟨ChildrenEntry.absent, ⟨none, some 0, none⟩⟩
        ⟨fun _ => [], 1⟩
        [[CSSClass.componentCSSClass "x" "b1"],
         [CSSClass.componentCSSClass "x" "b2"]]).2) ("x", "b2") = 0 ∧
    ("b2" : String) ≠ "" := by
  constructor
  · rfl
  · decide

/-- C1 amended: with an initialized combined ledger that does not yet
hold the identifier, and provided every component class with that
identifier occurring in the traversal carries the same body (dedup is
keyed on the identifier alone), the body is written exactly once across
all RenderCSSItems calls of the traversal, namely at the first call
whose inputs contain the class; every other call skips it (and no call
errors: in this model the sink is infallible and the emitters return
errors only for sink failures). -/
theorem renderCSSItems_once_per_id (ctx : Ctx) (a : Nat) (id body : String)
    (calls : List (List CSSClass)) (h : Heap)
    (hinit : ctx.core.renderedItems = some a)
    (hfresh : ("class_" ++ id) ∉ h.sets a)
    (_hbody : body ≠ "")
    (huniq : uniqBody id body calls = true) :
    (runCSSItems ctx h calls).2.length = calls.length ∧
    ∀ k tr, (runCSSItems ctx h calls).2.get? k = some tr →
      countPair tr (id, body) = if firstHit id calls = k then 1 else 0 :=
  ⟨runCSSItems_length ctx calls h,
    runCSSItems_fresh_aux ctx a id body hinit calls h hfresh huniq⟩

/-- Witness for renderCSSItems_once_per_id: two calls both containing
the same component class, against a freshly initialized ledger. -/
theorem renderCSSItems_once_per_id_witness :
    ((⟨ChildrenEntry.absent, ⟨none, some 0, none⟩⟩ : Ctx).core.renderedItems = some 0 ∧
     ("class_" ++ "x") ∉ (⟨fun _ => [], 1⟩ : Heap).sets 0 ∧
     ("b" : String) ≠ "" ∧
     uniqBody "x" "b" [[CSSClass.componentCSSClass "x" "b"],
       [CSSClass.componentCSSClass "x" "b"]] = true) ∧
    ((runCSSItems ⟨ChildrenEntry.absent, ⟨none, some 0, none⟩⟩ ⟨fun _ => [], 1⟩
        [[CSSClass.componentCSSClass "x" "b"],
         [CSSClass.componentCSSClass "x" "b"]]).2.length =
      ([[CSSClass.componentCSSClass "x" "b"],
        [CSSClass.componentCSSClass "x" "b"]] : List (List CSSClass)).length ∧
     ∀ k tr, (runCSSItems ⟨ChildrenEntry.absent, ⟨none, some 0, none⟩⟩ ⟨fun _ => [], 1⟩
        [[CSSClass.componentCSSClass "x" "b"],
         [CSSClass.componentCSSClass "x" "b"]]).2.get? k = some tr →
      countPair tr ("x", "b") =
        if firstHit "x" [[CSSClass.componentCSSClass "x" "b"],
          [CSSClass.componentCSSClass "x" "b"]] = k then 1 else 0) :=
  ⟨⟨rfl, by decide, by decide, by decide⟩,
    renderCSSItems_once_per_id ⟨ChildrenEntry.absent, ⟨none, some 0, none⟩⟩ 0 "x" "b"
      [[CSSClass.componentCSSClass "x" "b"], [CSSClass.componentCSSClass "x" "b"]]
      ⟨fun _ => [], 1⟩ rfl (by decide) (by decide) (by decide)⟩

/-- C7 counterexample: with no ledger in the context, a class emitted by
one RenderCSSItems call is emitted AGAIN by the next call of the same
render: the lazily created ledger's entries do not remain visible. -/
theorem renderCSSItems_lazy_not_persistent :
    (RenderCSSItems ⟨ChildrenEntry.absent, ⟨none, none, none⟩⟩ ⟨fun _ => [], 0⟩
      [CSSClass.componentCSSClass "x" "b"]).2.2 = [("x", "b")] ∧
    (RenderCSSItems ⟨ChildrenEntry.absent, ⟨none, none, none⟩⟩
      ((RenderCSSItems ⟨ChildrenEntry.absent, ⟨none, none, none⟩⟩ ⟨fun _ => [], 0⟩
        [CSSClass.componentCSSClass "x" "b"]).1)
      [CSSClass.componentCSSClass "x" "b"]).2.2 = [("x", "b")] :=
  ⟨rfl, rfl⟩

/-- C7 amended: when the combined ledger key is absent, the lazily
created ledger is local to the single RenderCSSItems call: the call
leaves the heap unchanged, its output and trace are independent of the
heap (so no earlier call of the render can influence it and it cannot
influence later calls), and within the one call each (identifier, body)
pair is still emitted at most once. -/
theorem renderCSSItems_lazy_call_local (ctx : Ctx) (h h' : Heap) (cs : List CSSClass)
    (hnone : ctx.core.renderedItems = none) :
    (RenderCSSItems ctx h cs).1 = h ∧
    (RenderCSSItems ctx h cs).2 = (RenderCSSItems ctx h' cs).2 ∧
    ∀ id body, countPair (RenderCSSItems ctx h cs).2.2 (id, body) ≤ 1 := by
  rw [renderCSSItems_none_eq ctx h cs hnone, renderCSSItems_none_eq ctx h' cs hnone]
  exact ⟨rfl, rfl, fun id body => cssItemsLoop_count_le_one id body cs []⟩

/-- Witness for renderCSSItems_lazy_call_local at concrete inputs. -/
theorem renderCSSItems_lazy_call_local_witness :
    (⟨ChildrenEntry.absent, ⟨none, none, none⟩⟩ : Ctx).core.renderedItems = none ∧
    ((RenderCSSItems ⟨ChildrenEntry.absent, ⟨none, none, none⟩⟩ ⟨fun _ => [], 0⟩
        [CSSClass.componentCSSClass "x" "b"]).1 = ⟨fun _ => [], 0⟩ ∧
     (RenderCSSItems ⟨ChildrenEntry.absent, ⟨none, none, none⟩⟩ ⟨fun _ => [], 0⟩
        [CSSClass.componentCSSClass "x" "b"]).2 =
       (RenderCSSItems ⟨ChildrenEntry.absent, ⟨none, none, none⟩⟩ ⟨fun _ => ["z"], 5⟩
        [CSSClass.componentCSSClass "x" "b"]).2 ∧
     ∀ id body, countPair (RenderCSSItems ⟨ChildrenEntry.absent, ⟨none, none, none⟩⟩
        ⟨fun _ => [], 0⟩ [CSSClass.componentCSSClass "x" "b"]).2.2 (id, body) ≤ 1) :=
  ⟨rfl, renderCSSItems_lazy_call_local ⟨ChildrenEntry.absent, ⟨none, none, none⟩⟩
    ⟨fun _ => [], 0⟩ ⟨fun _ => ["z"], 5⟩ [CSSClass.componentCSSClass "x" "b"] rfl⟩

theorem heap_update_sets_eq (h : Heap) (a : Nat) (rc : StringSet) :
    (h.update a rc).sets a = rc := by
  simp [Heap.update]

theorem heap_update_sets_ne (h : Heap) (a : Nat) (rc : StringSet) (n : Nat)
    (hne : n ≠ a) : (h.update a rc).sets n = h.sets n := by
  simp [Heap.update, hne]

/-- Evaluation of RenderCSS on a single fresh component class when the
legacy ledger is present in the context. -/
theorem renderCSS_single_fresh (ctx : Ctx) (h : Heap) (a : Nat) (id body : String)
    (hcl : ctx.core.renderedClasses = some a) (hA : id ∉ h.sets a) :
    RenderCSS ctx h [CSSClass.componentCSSClass id body] =
      (h.update a (id :: h.sets a), wrapStyle [(id, body)], [(id, body)]) := by
  simp [RenderCSS, RenderedCSSClassesFromContext, hcl, cssLegacyLoop,
    StringSet.Contains, StringSet.Add, hA]

/-- Evaluation of RenderCSS on a single already-rendered component class
when the legacy ledger is present in the context. -/
theorem renderCSS_single_marked (ctx : Ctx) (h : Heap) (a : Nat) (id body : String)
    (hcl : ctx.core.renderedClasses = some a) (hA : id ∈ h.sets a) :
    (RenderCSS ctx h [CSSClass.componentCSSClass id body]).2.2 = [] := by
  simp [RenderCSS, RenderedCSSClassesFromContext, hcl, cssLegacyLoop,
    StringSet.Contains, hA]

/-- Evaluation of RenderCSSItems on a single fresh component class when
the combined ledger is present in the context. -/
theorem renderCSSItems_single_fresh (ctx : Ctx) (h : Heap) (b : Nat) (id body : String)
    (hit : ctx.core.renderedItems = some b) (hB : ("class_" ++ id) ∉ h.sets b) :
    RenderCSSItems ctx h [CSSClass.componentCSSClass id body] =
      (h.update b (("class_" ++ id) :: h.sets b), wrapStyle [(id, body)], [(id, body)]) := by
  simp [RenderCSSItems, hit, cssItemsLoop, StringSet.ContainsClass,
    StringSet.Contains, StringSet.AddClass, StringSet.Add, hB]

/-- Evaluation of RenderCSSItems on a single already-rendered component
class when the combined ledger is present in the context. -/
theorem renderCSSItems_single_marked (ctx : Ctx) (h : Heap) (b : Nat) (id body : String)
    (hit : ctx.core.renderedItems = some b) (hB : ("class_" ++ id) ∈ h.sets b) :
    (RenderCSSItems ctx h [CSSClass.componentCSSClass id body]).2.2 = [] := by
  simp [RenderCSSItems, hit, cssItemsLoop, StringSet.ContainsClass,
    StringSet.Contains, hB]

/-- C8 counterexample: against a context carrying both ledgers, a class
already emitted through the legacy RenderCSS path is NOT treated as
already rendered by RenderCSSItems: its body is written a second time. -/
theorem renderCSS_paths_disagree :
    (RenderCSS ⟨ChildrenEntry.absent, ⟨some 0, some 1, none⟩⟩ ⟨fun _ => [], 2⟩
      [CSSClass.componentCSSClass "x" "b"]).2.2 = [("x", "b")] ∧
    (RenderCSSItems ⟨ChildrenEntry.absent, ⟨some 0, some 1, none⟩⟩
      ((RenderCSS ⟨ChildrenEntry.absent, ⟨some 0, some 1, none⟩⟩ ⟨fun _ => [], 2⟩
        [CSSClass.componentCSSClass "x" "b"]).1)
      [CSSClass.componentCSSClass "x" "b"]).2.2 = [("x", "b")] :=
  ⟨rfl, rfl⟩

/-- C8 amended: the two paths keep disjoint views.  With both ledgers
present (at distinct addresses) and the class fresh for both, the legacy
path emits the body, the combined path then emits it AGAIN (the paths do
not agree), and after that each path separately treats the class as
already rendered, so each path on its own emits at most once per
traversal while their union emits up to twice. -/
theorem renderCSS_paths_independent (ctx : Ctx) (h : Heap) (a b : Nat) (id body : String)
    (hcl : ctx.core.renderedClasses = some a)
    (hit : ctx.core.renderedItems = some b)
    (hab : a ≠ b)
    (hA : id ∉ h.sets a)
    (hB : ("class_" ++ id) ∉ h.sets b) :
    (RenderCSS ctx h [CSSClass.componentCSSClass id body]).2.2 = [(id, body)] ∧
    (RenderCSSItems ctx (RenderCSS ctx h [CSSClass.componentCSSClass id body]).1
      [CSSClass.componentCSSClass id body]).2.2 = [(id, body)] ∧
    (RenderCSS ctx (RenderCSSItems ctx (RenderCSS ctx h
        [CSSClass.componentCSSClass id body]).1 [CSSClass.componentCSSClass id body]).1
      [CSSClass.componentCSSClass id body]).2.2 = [] ∧
    (RenderCSSItems ctx (RenderCSSItems ctx (RenderCSS ctx h
        [CSSClass.componentCSSClass id body]).1 [CSSClass.componentCSSClass id body]).1
      [CSSClass.componentCSSClass id body]).2.2 = [] := by
  have e1 := renderCSS_single_fresh ctx h a id body hcl hA
  have h1sets_b : (h.update a (id :: h.sets a)).sets b = h.sets b :=
    heap_update_sets_ne h a _ b (Ne.symm hab)
  have hB1 : ("class_" ++ id) ∉ (RenderCSS ctx h
      [CSSClass.componentCSSClass id body]).1.sets b := by
    rw [e1]
    rw [h1sets_b]
    exact hB
  have e2 := renderCSSItems_single_fresh ctx
    (RenderCSS ctx h [CSSClass.componentCSSClass id body]).1 b id body hit hB1
  have h2sets_a : (RenderCSSItems ctx (RenderCSS ctx h
      [CSSClass.componentCSSClass id body]).1
      [CSSClass.componentCSSClass id body]).1.sets a = id :: h.sets a := by
    rw [e2, e1]
    rw [heap_update_sets_ne _ b _ a hab, heap_update_sets_eq]
  have h2sets_b : (RenderCSSItems ctx (RenderCSS ctx h
      [CSSClass.componentCSSClass id body]).1
      [CSSClass.componentCSSClass id body]).1.sets b =
      ("class_" ++ id) :: (h.update a (id :: h.sets a)).sets b := by
    rw [e2]
    rw [heap_update_sets_eq, e1]
  refine ⟨by rw [e1], by rw [e2], ?_, ?_⟩
  · refine renderCSS_single_marked ctx _ a id body hcl ?_
    rw [h2sets_a]
    exact List.mem_cons_self _ _
  · refine renderCSSItems_single_marked ctx _ b id body hit ?_
    rw [h2sets_b]
    exact List.mem_cons_self _ _

/-- Witness for renderCSS_paths_independent at concrete inputs. -/
theorem renderCSS_paths_independent_witness :
    ((⟨ChildrenEntry.absent, ⟨some 0, some 1, none⟩⟩ : Ctx).core.renderedClasses = some 0 ∧
     (⟨ChildrenEntry.absent, ⟨some 0, some 1, none⟩⟩ : Ctx).core.renderedItems = some 1 ∧
     (0 : Nat) ≠ 1 ∧
     ("x" : String) ∉ (⟨fun _ => [], 2⟩ : Heap).sets 0 ∧
     ("class_" ++ "x") ∉ (⟨fun _ => [], 2⟩ : Heap).sets 1) ∧
    ((RenderCSS ⟨ChildrenEntry.absent, ⟨some 0, some 1, none⟩⟩ ⟨fun _ => [], 2⟩
        [CSSClass.componentCSSClass "x" "b"]).2.2 = [("x", "b")] ∧
     (RenderCSSItems ⟨ChildrenEntry.absent, ⟨some 0, some 1, none⟩⟩
        (RenderCSS ⟨ChildrenEntry.absent, ⟨some 0, some 1, none⟩⟩ ⟨fun _ => [], 2⟩
          [CSSClass.componentCSSClass "x" "b"]).1
        [CSSClass.componentCSSClass "x" "b"]).2.2 = [("x", "b")] ∧
     (RenderCSS ⟨ChildrenEntry.absent, ⟨some 0, some 1, none⟩⟩
        (RenderCSSItems ⟨ChildrenEntry.absent, ⟨some 0, some 1, none⟩⟩
          (RenderCSS ⟨ChildrenEntry.absent, ⟨some 0, some 1, none⟩⟩ ⟨fun _ => [], 2⟩
            [CSSClass.componentCSSClass "x" "b"]).1
          [CSSClass.componentCSSClass "x" "b"]).1
        [CSSClass.componentCSSClass "x" "b"]).2.2 = [] ∧
     (RenderCSSItems ⟨ChildrenEntry.absent, ⟨some 0, some 1, none⟩⟩
        (RenderCSSItems ⟨ChildrenEntry.absent, ⟨some 0, some 1, none⟩⟩
          (RenderCSS ⟨ChildrenEntry.absent, ⟨some 0, some 1, none⟩⟩ ⟨fun _ => [], 2⟩
            [CSSClass.componentCSSClass "x" "b"]).1
          [CSSClass.componentCSSClass "x" "b"]).1
        [CSSClass.componentCSSClass "x" "b"]).2.2 = []) :=
  ⟨⟨rfl, rfl, by decide, by decide, by decide⟩,
    renderCSS_paths_independent ⟨ChildrenEntry.absent, ⟨some 0, some 1, none⟩⟩
      ⟨fun _ => [], 2⟩ 0 1 "x" "b" rfl rfl (by decide) (by decide) (by decide)⟩

end Templ
